import Mathlib

/-!
A verification development for the nice-api mint service.

The definitions below are a shallow embedding of the TypeScript sources
`src/clients.ts` and `src/server.ts` of the repository.  External
collaborators (the Capsule custodial wallet SDK, the Supabase share store,
the Alchemy relay) are opaque remote services; their outcomes enter the
model as explicit oracle values.  Time is an explicit `Nat` millisecond
clock, and machine integers are modelled as `Nat`/`Int`.
-/

namespace NiceApi

/-- Error values thrown by the modelled code.  `server*` constructors model
the error classes declared locally in `server.ts` (they are declared there
but never constructed by the code paths modelled here); `client*`
constructors model the classes of `clients.ts`; `jsError` models a plain
JavaScript `Error`.  The `cause` field models the `originalError` field. -/
inductive Err : Type
  | serverCapsuleInit (msg : String)
  | serverWalletOp (msg : String)
  | clientCapsuleInit (msg : String) (cause : Option Err)
  | clientWalletOp (msg : String) (cause : Option Err)
  | clientSigning (msg : String) (cause : Option Err)
  | jsError (msg : String)

/-- A Capsule wallet handle: `{id, address}` (`clients.ts`). -/
structure Wallet where
  id : String
  address : String
deriving DecidableEq

/-- Observable trace of one run of the `retry` helper of `clients.ts`
(lines 72-95): the final outcome, how many times the wrapped operation was
invoked, and the list of waits (in ms) performed between attempts.  The
result error is `none` when the code would `throw lastError` with
`lastError` still `undefined` (only possible when `maxRetries = 0`). -/
structure RetryTrace (ε α : Type) where
  result : Except (Option ε) α
  invocations : Nat
  delays : List Nat

/-- Recursion core for `retry`: `fuel` is the number of attempts still
allowed, `idx` is the 0-based index of the next invocation of the work.
Mirrors the `for` loop of `clients.ts` lines 79-92: invoke; on success
return; on failure either break (last attempt) or wait `retryDelay` and
continue. -/
def retryAux {ε α : Type} (work : Nat → Except ε α) (retryDelay : Nat) :
    Nat → Nat → Option ε → RetryTrace ε α
  | 0, _, last => ⟨Except.error last, 0, []⟩
  | fuel + 1, idx, _ =>
    match work idx with
    | Except.ok a => ⟨Except.ok a, 1, []⟩
    | Except.error e =>
      if fuel = 0 then ⟨Except.error (some e), 1, []⟩
      else
        let t := retryAux work retryDelay fuel (idx + 1) (some e)
        ⟨t.result, t.invocations + 1, retryDelay :: t.delays⟩

/-- The `retry` helper of `clients.ts` (lines 72-95), as a trace.  The
work function is indexed by the 0-based count of previous invocations. -/
def retryTrace {ε α : Type} (work : Nat → Except ε α)
    (maxRetries retryDelay : Nat) : RetryTrace ε α :=
  retryAux work retryDelay maxRetries 0 none

/-- Constant `MAX_RETRIES` of `clients.ts` (line 65). -/
def clientsMaxRetries : Nat := 3

/-- Constant `RETRY_DELAY` of `clients.ts` (line 66). -/
def clientsRetryDelay : Nat := 1000

/-- Helper: `retry` applied with its default arguments to a deterministic
operation, keeping only the outcome.  The unreachable `error none` case
(impossible since `MAX_RETRIES = 3 ≥ 1`) is mapped to a plain error. -/
def retryE {α : Type} (op : Except Err α) : Except Err α :=
  match (retryTrace (fun _ => op) clientsMaxRetries clientsRetryDelay).result with
  | Except.ok a => Except.ok a
  | Except.error (some e) => Except.error e
  | Except.error none => Except.error (Err.jsError "undefined")

/-! ## Validation and normalization (`server.ts` lines 150-198) -/

/-- JavaScript regex-class whitespace, restricted to the code points the
modelled strings can contain (space, tab, line feed, vertical tab, form
feed, carriage return, no-break space). -/
def jsWsB (c : Char) : Bool :=
  c.toNat = 32 || c.toNat = 9 || c.toNat = 10 || c.toNat = 13 ||
  c.toNat = 11 || c.toNat = 12 || c.toNat = 160

/-- JavaScript `String.prototype.trim`: drop leading and trailing whitespace. -/
def jsTrimL (cs : List Char) : List Char :=
  ((cs.dropWhile jsWsB).reverse.dropWhile jsWsB).reverse

/-- JavaScript `String.prototype.trim` on strings. -/
def jsTrimS (s : String) : String := String.mk (jsTrimL s.data)

/-- JavaScript `String.prototype.toLowerCase`, ASCII fragment (the modelled inputs
are ASCII). -/
def jsLowerChar (c : Char) : Char :=
  if 65 ≤ c.toNat && c.toNat ≤ 90 then Char.ofNat (c.toNat + 32) else c

/-- JavaScript `toLowerCase` on strings. -/
def jsLowerS (s : String) : String := String.mk (s.data.map jsLowerChar)

/-- Normalization `email.toLowerCase().trim()` (`server.ts` line 180). -/
def normalizeEmail (s : String) : String := jsTrimS (jsLowerS s)

/-- A character admitted by the regex class `[^\s@]`. -/
def emailOkChar (c : Char) : Bool := !(jsWsB c) && !(c = '@')

/-- Function `isValidEmail` (`server.ts` lines 151-154): the anchored regex
`^[^\s@]+@[^\s@]+\.[^\s@]+$`.  Since `[^\s@]` excludes `@`, the matched
`@` is the first (and only) `@` of the string; the part after it must be
free of whitespace and `@` and contain a dot that is neither its first
nor its last character. -/
def isValidEmail (s : String) : Bool :=
  let cs := s.data
  let i := cs.indexOf '@'
  if i = cs.length then false
  else
    let a := cs.take i
    let b := cs.drop (i + 1)
    !(a.isEmpty) && a.all emailOkChar && !(b.isEmpty) && b.all emailOkChar &&
      (b.tail.dropLast.contains '.')

/-- An ASCII decimal digit (regex `\d`). -/
def isAsciiDigit (c : Char) : Bool := 48 ≤ c.toNat && c.toNat ≤ 57

/-- Function `isValidPhone` (`server.ts` lines 156-159): the anchored regex
`^\+[1-9]\d{1,14}$`. -/
def isValidPhone (s : String) : Bool :=
  match s.data with
  | a :: c :: rest =>
    (a = '+') && (49 ≤ c.toNat && c.toNat ≤ 57) && rest.all isAsciiDigit &&
      (decide (1 ≤ rest.length) && decide (rest.length ≤ 14))
  | _ => false

/-- JavaScript truthiness of an optional string field: absent and the
empty string are falsy. -/
def presentS : Option String → Bool
  | none => false
  | some s => !(s = "")

/-- JavaScript `a || b` on optional string fields. -/
def jsOr (a b : Option String) : Option String :=
  if presentS a then a else b

/-- Outcome of the `validateRequest` middleware: either an early JSON
error response, or `next()` with the (possibly normalized) body fields. -/
inductive ValidateResult : Type
  | reject (status : Nat) (error : String)
  | proceed (email phone : Option String)
deriving DecidableEq

/-- The phone half of `validateRequest` (`server.ts` lines 183-191),
run after the email half with the already-normalized email field. -/
def validatePhonePart (email phone : Option String) : ValidateResult :=
  match phone with
  | some p =>
    if p = "" then ValidateResult.proceed email phone
    else if isValidPhone p then
      ValidateResult.proceed email (some (jsTrimS p))
    else
      ValidateResult.reject 400
        "Invalid phone format. Use international format (e.g. +5511999999999)"
  | none => ValidateResult.proceed email none

/-- The `validateRequest` middleware (`server.ts` lines 162-198). -/
def validateRequest (email phone : Option String) : ValidateResult :=
  if !(presentS email) && !(presentS phone) then
    ValidateResult.reject 400 "Either email or phone is required"
  else
    match email with
    | some e =>
      if e = "" then validatePhonePart email phone
      else if isValidEmail e then
        validatePhonePart (some (normalizeEmail e)) phone
      else ValidateResult.reject 400 "Invalid email format"
    | none => validatePhonePart none phone

/-! ## Circuit breaker (`server.ts` lines 118-148) -/

/-- The mutable fields of the `CircuitBreaker` class. -/
structure CBState where
  failures : Nat
  lastFailure : Nat
  isOpen : Bool
deriving DecidableEq

/-- Method `isCircuitOpen()` (`server.ts` lines 123-132): returns the reported
status together with the state after the (lazily evaluated) reset. -/
def isCircuitOpen (now resetTime : Nat) (cb : CBState) : Bool × CBState :=
  if cb.isOpen then
    if resetTime < now - cb.lastFailure then
      (false, { cb with failures := 0, isOpen := false })
    else (true, cb)
  else (false, cb)

/-- Method `recordFailure()` (`server.ts` lines 134-140). -/
def recordFailure (now threshold : Nat) (cb : CBState) : CBState :=
  let f := cb.failures + 1
  { failures := f, lastFailure := now,
    isOpen := if threshold < f then true else cb.isOpen }

/-- Method `reset()` (`server.ts` lines 142-145). -/
def cbReset (cb : CBState) : CBState :=
  { cb with failures := 0, isOpen := false }

/-- A sequence of `recordFailure()` calls at the given timestamps. -/
def recordFailures (threshold : Nat) (times : List Nat) (cb : CBState) :
    CBState :=
  times.foldl (fun c t => recordFailure t threshold c) cb

/-! ## Wallet provisioning (`clients.ts` lines 141-232) -/

/-- Outcomes of the opaque remote collaborators used by
`createOrGetPregenWallet`.  Each field is the (deterministic) outcome of
one remote operation; `getWallets` models the wallet record of the
Capsule session after the share has been set. -/
structure CapsuleOracles where
  hasPregenWallet : Except Err Bool
  createWalletPreGen : Except Err Wallet
  getUserShare : Except Err (Option String)
  storeUserShare : String → Except Err Unit
  getShareFromDb : Except Err (Option String)
  setUserShare : String → Except Err Unit
  getWallets : List Wallet

/-- The retried closure of `clients.ts` lines 179-186: fetch the user
share from the session and throw if it is falsy (absent or empty). -/
def getUserShareOp (caps : CapsuleOracles) : Except Err String :=
  match caps.getUserShare with
  | Except.error e => Except.error e
  | Except.ok none =>
    Except.error (Err.clientWalletOp "Failed to get user share" none)
  | Except.ok (some sh) =>
    if sh = "" then
      Except.error (Err.clientWalletOp "Failed to get user share" none)
    else Except.ok sh

/-- The `try` body of `createOrGetPregenWallet` (`clients.ts` lines
155-216): check wallet existence; on the fresh path create a wallet,
extract and persist the share; on the existing path load the persisted
share, re-inject it and return the first wallet of the session. -/
def createOrGetBody (caps : CapsuleOracles) : Except Err Wallet := do
  let hasWallet ← retryE caps.hasPregenWallet
  if hasWallet = false then do
    let w ← retryE caps.createWalletPreGen
    let sh ← retryE (getUserShareOp caps)
    let _ ← retryE (caps.storeUserShare sh)
    pure w
  else do
    let shOpt ← retryE caps.getShareFromDb
    match shOpt with
    | none =>
      Except.error (Err.clientWalletOp "User share not found in database" none)
    | some sh =>
      if sh = "" then
        Except.error (Err.clientWalletOp "User share not found in database" none)
      else do
        let _ ← retryE (caps.setUserShare sh)
        match caps.getWallets with
        | [] =>
          Except.error
            (Err.clientWalletOp "No wallet found after setting user share" none)
        | w :: _ => pure w

/-- Function `createOrGetPregenWallet` (`clients.ts` lines 141-232): the guard on
a falsy identifier throws outside the `try`; every error of the body is
re-wrapped as `WalletOperationError("Wallet operation failed", cause)`. -/
def createOrGetPregenWallet (identifier : String) (caps : CapsuleOracles) :
    Except Err Wallet :=
  if identifier = "" then
    Except.error (Err.clientWalletOp "Invalid identifier or identifier type" none)
  else
    match createOrGetBody caps with
    | Except.ok w => Except.ok w
    | Except.error e =>
      Except.error (Err.clientWalletOp "Wallet operation failed" (some e))

/-! ## Signing (`clients.ts` lines 303-345) -/

/-- Value of a hexadecimal digit character (`0-9`, `a-f`, `A-F`). -/
def hexDigitVal (c : Char) : Option Nat :=
  let n := c.toNat
  if 48 ≤ n && n ≤ 57 then some (n - 48)
  else if 97 ≤ n && n ≤ 102 then some (n - 87)
  else if 65 ≤ n && n ≤ 70 then some (n - 55)
  else none

/-- Accumulate the value of a maximal leading run of hex digits. -/
def hexDigitsVal : List Char → Nat → Nat
  | [], acc => acc
  | c :: cs, acc =>
    match hexDigitVal c with
    | some d => hexDigitsVal cs (16 * acc + d)
    | none => acc

/-- JavaScript `parseInt(x, 16)`: skip leading whitespace, read an
optional sign and an optional `0x`/`0X` marker, then the longest prefix
of hex digits; `NaN` (modelled as `none`) when no digit follows. -/
def jsParseIntHex (cs : List Char) : Option Int :=
  let cs1 := cs.dropWhile jsWsB
  let sgn : Int :=
    match cs1 with
    | c :: _ => if c = '-' then -1 else 1
    | [] => 1
  let cs2 :=
    match cs1 with
    | c :: rest => if c = '-' || c = '+' then rest else cs1
    | [] => cs1
  let cs3 :=
    match cs2 with
    | a :: b :: rest => if a = '0' && (b = 'x' || b = 'X') then rest else cs2
    | _ => cs2
  match cs3 with
  | c :: _ =>
    if (hexDigitVal c).isSome then some (sgn * (hexDigitsVal cs3 0 : Int))
    else none
  | [] => none

/-- JavaScript `Number.prototype.toString(16)` on an integer. -/
def jsNumToHexString (v : Int) : String :=
  if v < 0 then "-" ++ String.mk (Nat.toDigits 16 v.natAbs)
  else String.mk (Nat.toDigits 16 v.toNat)

/-- JavaScript `padStart(2, "0")`. -/
def padStart2 (s : String) : String :=
  if s.length < 2 then String.mk (List.replicate (2 - s.length) '0') ++ s
  else s

/-- The `try` body of `customSignMessage` (`clients.ts` lines 307-341):
check the session wallet record, request a raw signature (retried),
validate it, adjust a trailing recovery byte below 27 by adding 27, and
prefix `0x`.  `wallets` is `none` when `capsule.wallets` is nullish;
`signRes` is the signer outcome, with `none` for a missing or
non-string `signature` field. -/
def customSignMessageBody (wallets : Option (List Wallet))
    (signRes : Except Err (Option String)) : Except Err String := do
  match wallets with
  | none =>
    Except.error
      (Err.clientSigning "Capsule instance is not properly initialized" none)
  | some ws =>
    match ws with
    | [] =>
      Except.error (Err.clientSigning "No wallet available for signing" none)
    | _ :: _ => do
      let sigOpt ← retryE signRes
      match sigOpt with
      | none =>
        Except.error (Err.clientSigning "Invalid signature format received" none)
      | some s =>
        if s = "" then
          Except.error (Err.clientSigning "Invalid signature format received" none)
        else
          let last2 := s.data.drop (s.data.length - 2)
          match jsParseIntHex last2 with
          | some v =>
            if v < 27 then
              let adjusted := padStart2 (jsNumToHexString (v + 27))
              pure ("0x" ++ String.mk (s.data.take (s.data.length - 2)) ++ adjusted)
            else pure ("0x" ++ s)
          | none => pure ("0x" ++ s)

/-- Function `customSignMessage` (`clients.ts` lines 303-345): every error of the
body is re-wrapped as `SigningError("Message signing failed", cause)`. -/
def customSignMessage (wallets : Option (List Wallet))
    (signRes : Except Err (Option String)) : Except Err String :=
  match customSignMessageBody wallets signRes with
  | Except.ok s => Except.ok s
  | Except.error e =>
    Except.error (Err.clientSigning "Message signing failed" (some e))

/-- Recognizer for a `SigningError` outcome. -/
def isSigningErrorRes (r : Except Err String) : Bool :=
  match r with
  | Except.error (Err.clientSigning _ _) => true
  | _ => false

/-- Recognizer for a `WalletOperationError` outcome. -/
def isWalletOpErrorRes (r : Except Err Wallet) : Bool :=
  match r with
  | Except.error (Err.clientWalletOp _ _) => true
  | _ => false

/-- Hex value of a two-character pair. -/
def hexPairVal (c1 c2 : Char) : Option Nat :=
  match hexDigitVal c1, hexDigitVal c2 with
  | some a, some b => some (16 * a + b)
  | _, _ => none

/-- The value of the trailing byte (last two hex characters) of a
signature string. -/
def trailingPairVal (s : String) : Option Nat :=
  match s.data.reverse with
  | c2 :: c1 :: _ => hexPairVal c1 c2
  | _ => none

/-! ## Server pipeline (`server.ts` lines 33-46, 74-106, 200-449) -/

/-- The `PregenIdentifierType` values used by the server. -/
inductive IdKind : Type
  | EMAIL
  | PHONE
deriving DecidableEq

/-- The `MintResult` record (`server.ts` lines 40-46). -/
structure MintResult where
  status : String
  identifier : String
  identifierType : IdKind
  walletAddress : String
  operationHash : String
deriving DecidableEq

/-- A JSON response of the `/mint` route: a 200 with a `MintResult`
body, or an error body with optional `retryAfter` (seconds). -/
inductive HttpResponse : Type
  | okJson (result : MintResult)
  | errJson (status : Nat) (error : String) (retryAfter : Option Nat)
deriving DecidableEq

/-- The process-wide mutable state of the server: the circuit breaker
and the `NodeCache` contents (key, value, expiry time in ms; a later
entry for the same key shadows earlier ones). -/
structure ServerState where
  cb : CBState
  cache : List (String × MintResult × Nat)
deriving DecidableEq

/-- Operation `cache.get(key)` at time `now`: the newest entry for the key, if not
yet expired. -/
def cacheGet (cache : List (String × MintResult × Nat)) (now : Nat)
    (key : String) : Option MintResult :=
  match cache.find? (fun e => e.1 = key) with
  | some (_, r, expiry) => if now < expiry then some r else none
  | none => none

/-- Operation `cache.set(key, result)` at time `now` with TTL `ttl` seconds. -/
def cacheSet (cache : List (String × MintResult × Nat)) (now ttl : Nat)
    (key : String) (r : MintResult) : List (String × MintResult × Nat) :=
  (key, r, now + ttl * 1000) :: cache

/-- Configuration constants of `server.ts` lines 74-84, with their
defaults.  (`RATE_LIMIT_*` govern the external `express-rate-limit`
collaborator, which is outside the modelled pipeline.) -/
structure Config where
  cacheTTL : Nat := 3600
  threshold : Nat := 10
  resetTime : Nat := 300000
  maxRetries : Nat := 3
  retryDelayBase : Nat := 1000

/-- Outcomes of the downstream steps of one mint attempt: the Capsule
session bring-up, the provisioning oracles, the Viem and Alchemy client
constructions, and the user-operation submission. -/
structure MintEnv where
  initCapsule : Except Err Unit
  caps : CapsuleOracles
  viem : Except Err Unit
  alchemy : Except Err Unit
  sendUserOp : Except Err String

/-- One iteration of the `performMint` attempt loop (`server.ts` lines
257-321), together with the number of downstream steps entered. -/
def mintAttempt (env : MintEnv) (identifier : String) (kind : IdKind) :
    Except Err MintResult × Nat :=
  match env.initCapsule with
  | Except.error e => (Except.error e, 1)
  | Except.ok _ =>
    match createOrGetPregenWallet identifier env.caps with
    | Except.error e => (Except.error e, 2)
    | Except.ok w =>
      if w.address = "" then
        (Except.error (Err.jsError "Failed to create or get wallet"), 2)
      else
        match env.viem with
        | Except.error e => (Except.error e, 3)
        | Except.ok _ =>
          match env.alchemy with
          | Except.error e => (Except.error e, 4)
          | Except.ok _ =>
            match env.sendUserOp with
            | Except.error e => (Except.error e, 5)
            | Except.ok h =>
              (Except.ok
                { status := "success", identifier := identifier,
                  identifierType := kind, walletAddress := w.address,
                  operationHash := h }, 5)

/-- The attempt loop of `performMint` (`server.ts` lines 254-324):
up to `fuel` attempts; on exhaustion the last error (or the placeholder
when no attempt ran) propagates. -/
def performMintLoop (env : MintEnv) (identifier : String) (kind : IdKind) :
    Nat → Option Err → Except Err MintResult × Nat
  | 0, last =>
    (Except.error
      (match last with
       | some e => e
       | none => Err.jsError "Max retries exceeded"), 0)
  | fuel + 1, _ =>
    match mintAttempt env identifier kind with
    | (Except.ok r, c) => (Except.ok r, c)
    | (Except.error e, c) =>
      let t := performMintLoop env identifier kind fuel (some e)
      (t.1, c + t.2)

/-- Function `performMint` (`server.ts` lines 243-325): derive the identifier
(email takes precedence) and its kind, then run the attempt loop. -/
def performMint (cfg : Config) (env : MintEnv) (email phone : Option String) :
    Except Err MintResult × Nat :=
  match jsOr email phone with
  | none => (Except.error (Err.jsError "No identifier provided"), 0)
  | some s =>
    if s = "" then (Except.error (Err.jsError "No identifier provided"), 0)
    else
      let kind := if presentS email then IdKind.EMAIL else IdKind.PHONE
      performMintLoop env s kind cfg.maxRetries none

/-- Error classification of `mintHandler` (`server.ts` lines 383-411).
The `instanceof` checks refer to the error classes declared in
`server.ts` itself, which the modelled code never constructs. -/
def mintErrorResponse (cfg : Config) (e : Err) : HttpResponse :=
  match e with
  | Err.serverCapsuleInit _ =>
    HttpResponse.errJson 503 "Service temporarily unavailable"
      (some (cfg.resetTime / 1000))
  | Err.serverWalletOp _ =>
    HttpResponse.errJson 500 "Wallet operation failed" (some 60)
  | _ =>
    HttpResponse.errJson 500 "Failed to mint NFT" (some (cfg.resetTime / 1000))

/-- Function `mintHandler` (`server.ts` lines 328-413): a preliminary Capsule
bring-up (503 on failure, without recording a breaker failure), then
`performMint`; on success write-through to the cache and reset the
breaker; on failure record a breaker failure and classify the error.
Returns the response, the new state and the downstream step count. -/
def mintHandler (cfg : Config) (env : MintEnv) (now : Nat) (st : ServerState)
    (email phone : Option String) : HttpResponse × ServerState × Nat :=
  let identifier := jsOr email phone
  match env.initCapsule with
  | Except.error _ =>
    (HttpResponse.errJson 503 "Service initialization failed" (some 60), st, 1)
  | Except.ok _ =>
    match performMint cfg env email phone with
    | (Except.ok result, c) =>
      let st1 :=
        match identifier with
        | some s =>
          if s = "" then st
          else
            { st with
              cache := cacheSet st.cache now cfg.cacheTTL ("mint:" ++ s) result }
        | none => st
      (HttpResponse.okJson result, { st1 with cb := cbReset st1.cb }, 1 + c)
    | (Except.error e, c) =>
      (mintErrorResponse cfg e,
        { st with cb := recordFailure now cfg.threshold st.cb }, 1 + c)

/-- The `POST /mint` route (`server.ts` lines 442-449) from
`validateRequest` onward: `validateRequest`, `cacheMiddleware` (lines
200-224), `circuitBreakerMiddleware` (lines 226-240), then
`mintHandler`.  The preceding `express-rate-limit` middleware is an
external collaborator and is not modelled.  Returns the response, the
new server state and the number of downstream steps entered. -/
def postMint (cfg : Config) (env : MintEnv) (now : Nat) (st : ServerState)
    (email phone : Option String) : HttpResponse × ServerState × Nat :=
  match validateRequest email phone with
  | ValidateResult.reject code msg =>
    (HttpResponse.errJson code msg none, st, 0)
  | ValidateResult.proceed email1 phone1 =>
    let hit : Option MintResult :=
      match jsOr email1 phone1 with
      | some s => if s = "" then none else cacheGet st.cache now ("mint:" ++ s)
      | none => none
    match hit with
    | some r => (HttpResponse.okJson r, st, 0)
    | none =>
      let chk := isCircuitOpen now cfg.resetTime st.cb
      if chk.1 then
        (HttpResponse.errJson 503 "Service temporarily unavailable"
          (some (cfg.resetTime / 1000)), { st with cb := chk.2 }, 0)
      else
        mintHandler cfg env now { st with cb := chk.2 } email1 phone1

/-! ## Lemmas about the retry helper -/

theorem retryAux_inv_pos {ε α : Type} (work : Nat → Except ε α) (d : Nat) :
    ∀ fuel idx last, 1 ≤ fuel →
      1 ≤ (retryAux work d fuel idx last).invocations := by
  intro fuel idx last hf
  match fuel, hf with
  | fuel + 1, _ =>
    cases hw : work idx with
    | ok a => simp [retryAux, hw]
    | error e =>
      by_cases h0 : fuel = 0 <;> simp [retryAux, hw, h0]

theorem retryAux_delays {ε α : Type} (work : Nat → Except ε α) (d : Nat) :
    ∀ fuel idx last,
      (retryAux work d fuel idx last).delays =
        List.replicate ((retryAux work d fuel idx last).invocations - 1) d := by
  intro fuel
  induction fuel with
  | zero => intro idx last; simp [retryAux]
  | succ n ih =>
    intro idx last
    cases hw : work idx with
    | ok a => simp [retryAux, hw]
    | error e =>
      by_cases h0 : n = 0
      · simp [retryAux, hw, h0]
      · have hpos :=
          retryAux_inv_pos work d n (idx + 1) (some e)
            (Nat.one_le_iff_ne_zero.mpr h0)
        simp only [retryAux, hw, if_neg h0]
        rw [ih (idx + 1) (some e)]
        obtain ⟨k, hk⟩ := Nat.exists_eq_add_of_le hpos
        simp only [hk, Nat.add_sub_cancel_left, Nat.add_comm 1 k,
          Nat.add_sub_cancel, List.replicate_succ]

theorem retryAux_ok {ε α : Type} (work : Nat → Except ε α) (d : Nat) :
    ∀ k fuel idx last (v : α), k < fuel →
      (∀ j, j < k → ∃ e, work (idx + j) = Except.error e) →
      work (idx + k) = Except.ok v →
      retryAux work d fuel idx last =
        ⟨Except.ok v, k + 1, List.replicate k d⟩ := by
  intro k
  induction k with
  | zero =>
    intro fuel idx last v hk hfail hok
    match fuel, hk with
    | fuel + 1, _ =>
      rw [Nat.add_zero] at hok
      simp [retryAux, hok]
  | succ k ih =>
    intro fuel idx last v hk hfail hok
    match fuel, hk with
    | fuel + 1, hk =>
      obtain ⟨e, he⟩ := hfail 0 (Nat.succ_pos k)
      rw [Nat.add_zero] at he
      have hfuel : k < fuel := Nat.lt_of_succ_lt_succ hk
      have hfz : fuel ≠ 0 := by omega
      have hih :=
        ih fuel (idx + 1) (some e) v hfuel
          (fun j hj => by
            obtain ⟨e2, he2⟩ := hfail (j + 1) (Nat.succ_lt_succ hj)
            exact ⟨e2, by rw [show idx + 1 + j = idx + (j + 1) by omega]; exact he2⟩)
          (by rw [show idx + 1 + k = idx + (k + 1) by omega]; exact hok)
      simp only [retryAux, he, if_neg hfz, hih]
      simp [List.replicate_succ]

theorem retryAux_allfail {ε α : Type} (work : Nat → Except ε α) (d : Nat)
    (errF : Nat → ε) (hall : ∀ i, work i = Except.error (errF i)) :
    ∀ fuel idx last, 1 ≤ fuel →
      retryAux work d fuel idx last =
        ⟨Except.error (some (errF (idx + fuel - 1))), fuel,
          List.replicate (fuel - 1) d⟩ := by
  intro fuel
  induction fuel with
  | zero => intro idx last h; omega
  | succ n ih =>
    intro idx last _
    by_cases h0 : n = 0
    · subst h0
      simp [retryAux, hall idx]
    · have hih := ih (idx + 1) (some (errF idx)) (Nat.one_le_iff_ne_zero.mpr h0)
      simp only [retryAux, hall idx, if_neg h0, hih]
      have h1 : idx + 1 + n - 1 = idx + (n + 1) - 1 := by omega
      have h2 : List.replicate (n + 1 - 1) d = d :: List.replicate (n - 1) d := by
        have : n + 1 - 1 = (n - 1) + 1 := by omega
        rw [this, List.replicate_succ]
      simp only [h1, Nat.add_sub_cancel, h2]
      congr 1
      conv_rhs => rw [show n = (n - 1) + 1 by omega]
      rw [List.replicate_succ]

/-! ## Claim C1 -/

/-- Claim C1 (counterexample).  The claim states that the generic retry
wrapper waits `baseDelay * 2 ^ i` after a failure at attempt index `i`.
Concretely, for a work function that always fails, `maxRetries = 3` and
`baseDelay = 1000`, the wrapper waits 1000 ms before both the second and
the third attempt, whereas a pure exponential backoff would make the
second wait `1000 * 2 ^ 1` (1-based attempt indexing) or `1000 * 2 ^ 1`
and the first wait `1000 * 2 ^ 1` (0-based with `i = 1` for the second
failing attempt) — under either indexing the two waits would differ,
but the code produces two equal waits of 1000 ms. -/
theorem c1_counterexample :
    (retryTrace (fun _ => (Except.error 0 : Except Nat Nat)) 3 1000).delays =
        [1000, 1000] ∧
      ¬(1000 = 1000 * 2 ^ 1) ∧ ¬(1000 = 1000 * 2 ^ 2) := by
  decide

/-- Claim C1 (amended).  For every asynchronous work function, the generic
retry wrapper of `clients.ts` waits a constant `retryDelay` before each
subsequent attempt — one wait per non-final failed attempt, all equal to
`retryDelay` — not an exponentially growing delay. -/
theorem c1_retry_constant_delay {ε α : Type} (work : Nat → Except ε α)
    (maxRetries retryDelay : Nat) :
    (retryTrace work maxRetries retryDelay).delays =
      List.replicate ((retryTrace work maxRetries retryDelay).invocations - 1)
        retryDelay :=
  retryAux_delays work retryDelay maxRetries 0 none

/-! ## Claim C2 -/

/-- Claim C2.  If the work fails at its first `k` invocations and succeeds
at invocation `k` (0-based), and `maxRetries > k`, then `retry` returns
the success value after exactly `k + 1` invocations; if the work always
fails and `maxRetries = n ≥ 1`, then `retry` performs exactly `n`
invocations and propagates the error of the last invocation unchanged. -/
theorem c2_retry_invocation_counts {ε α : Type} (d : Nat) :
    (∀ (work : Nat → Except ε α) (k mr : Nat) (v : α),
        (∀ j, j < k → ∃ e, work j = Except.error e) →
        work k = Except.ok v → k < mr →
        (retryTrace work mr d).result = Except.ok v ∧
          (retryTrace work mr d).invocations = k + 1) ∧
      (∀ (work : Nat → Except ε α) (errF : Nat → ε) (mr : Nat),
        (∀ i, work i = Except.error (errF i)) → 1 ≤ mr →
        (retryTrace work mr d).result = Except.error (some (errF (mr - 1))) ∧
          (retryTrace work mr d).invocations = mr) := by
  constructor
  · intro work k mr v hfail hok hk
    have h :=
      retryAux_ok work d k mr 0 none v hk
        (fun j hj => by simpa using hfail j hj) (by simpa using hok)
    rw [retryTrace, h]
    exact ⟨rfl, rfl⟩
  · intro work errF mr hall hmr
    have h := retryAux_allfail work d errF hall mr 0 none hmr
    rw [retryTrace, h]
    exact ⟨by simp, rfl⟩

/-- Witness for C2: a work function failing twice then succeeding, with
`maxRetries = 3`, yields the success value after 3 invocations; an
always-failing work function with `maxRetries = 3` yields 3 invocations
and the error of invocation 2 (0-based). -/
theorem c2_retry_invocation_counts_witness :
    (retryTrace (fun i => if i < 2 then Except.error i else Except.ok 7) 3
          1000).result = Except.ok 7 ∧
      (retryTrace (fun i => if i < 2 then Except.error i else Except.ok 7) 3
          1000).invocations = 3 ∧
      (retryTrace (fun i => (Except.error i : Except Nat Nat)) 3
          1000).result = Except.error (some 2) ∧
      (retryTrace (fun i => (Except.error i : Except Nat Nat)) 3
          1000).invocations = 3 := by
  have h1 :=
    (c2_retry_invocation_counts (ε := Nat) (α := Nat) 1000).1
      (fun i => if i < 2 then Except.error i else Except.ok 7) 2 3 7
      (fun j hj => ⟨j, by simp [hj]⟩) (by simp) (by omega)
  have h2 :=
    (c2_retry_invocation_counts (ε := Nat) (α := Nat) 1000).2
      (fun i => (Except.error i : Except Nat Nat)) (fun i => i) 3
      (fun i => rfl) (by omega)
  exact ⟨h1.1, h1.2, h2.1, h2.2⟩

/-! ## Claim C3 -/

theorem isValidPhone_iff (s : String) :
    isValidPhone s = true ↔
      ∃ c rest, s.data = '+' :: c :: rest ∧ 49 ≤ c.toNat ∧ c.toNat ≤ 57 ∧
        (∀ d ∈ rest, isAsciiDigit d = true) ∧ 1 ≤ rest.length ∧
        rest.length ≤ 14 := by
  cases s with
  | mk cs =>
    match cs with
    | [] => simp [isValidPhone]
    | [a] => simp [isValidPhone]
    | a :: c :: rest =>
      simp only [isValidPhone, Bool.and_eq_true, decide_eq_true_eq,
        List.all_eq_true]
      constructor
      · rintro ⟨⟨⟨ha, hc1, hc2⟩, hall⟩, h1, h2⟩
        subst ha
        exact ⟨c, rest, rfl, hc1, hc2, hall, h1, h2⟩
      · rintro ⟨c2, rest2, heq, hc1, hc2, hall, h1, h2⟩
        obtain ⟨ha, hc, hrest⟩ : a = '+' ∧ c = c2 ∧ rest = rest2 := by
          simpa using heq
        subst ha; subst hc; subst hrest
        exact ⟨⟨⟨rfl, hc1, hc2⟩, hall⟩, h1, h2⟩

theorem mk_cons_ne_empty (c : Char) (cs : List Char) :
    String.mk (c :: cs) ≠ "" := by
  intro h
  have := congrArg String.data h
  simp at this

/-- Claim C3 (counterexample).  The claim accepts every string of `+`
followed by 2 to 15 digits, but `"+01"` — a `+` followed by two digits —
is rejected by `isValidPhone` (the regex requires the first digit to be
1-9) and the request is rejected with a 400 response. -/
theorem c3_counterexample :
    "+01".data = ['+', '0', '1'] ∧ isAsciiDigit '0' = true ∧
      isAsciiDigit '1' = true ∧ isValidPhone "+01" = false ∧
      validateRequest none (some "+01") =
        ValidateResult.reject 400
          "Invalid phone format. Use international format (e.g. +5511999999999)" := by
  decide

/-- Claim C3 (amended).  Phone validation succeeds exactly for a `+`
followed by a first digit 1-9 and then 1 to 14 further digits (2 to 15
digits total, the first nonzero); for such strings the request proceeds
with the trimmed phone, and every string failing the check — missing
`+`, leading digit 0, a non-digit, or wrong length — is rejected with a
400 validation error. -/
theorem c3_phone_validation :
    (∀ s : String, isValidPhone s = true ↔
        ∃ c rest, s.data = '+' :: c :: rest ∧ 49 ≤ c.toNat ∧ c.toNat ≤ 57 ∧
          (∀ d ∈ rest, isAsciiDigit d = true) ∧ 1 ≤ rest.length ∧
          rest.length ≤ 14) ∧
      (∀ (c : Char) (rest : List Char), 49 ≤ c.toNat → c.toNat ≤ 57 →
        (∀ d ∈ rest, isAsciiDigit d = true) → 1 ≤ rest.length →
        rest.length ≤ 14 →
        validateRequest none (some (String.mk ('+' :: c :: rest))) =
          ValidateResult.proceed none
            (some (jsTrimS (String.mk ('+' :: c :: rest))))) ∧
      (∀ p : String, isValidPhone p = false →
        ∃ m, validateRequest none (some p) = ValidateResult.reject 400 m) := by
  refine ⟨isValidPhone_iff, ?_, ?_⟩
  · intro c rest hc1 hc2 hall h1 h2
    have hphone : isValidPhone (String.mk ('+' :: c :: rest)) = true :=
      (isValidPhone_iff _).mpr ⟨c, rest, rfl, hc1, hc2, hall, h1, h2⟩
    have hne := mk_cons_ne_empty '+' (c :: rest)
    simp [validateRequest, validatePhonePart, presentS, hne, hphone]
  · intro p hp
    by_cases hpe : p = ""
    · subst hpe
      exact ⟨"Either email or phone is required", by
        simp [validateRequest, presentS]⟩
    · refine ⟨"Invalid phone format. Use international format (e.g. +5511999999999)", ?_⟩
      simp [validateRequest, validatePhonePart, presentS, hpe, hp]

/-- Witness for C3 (amended): `"+12"` proceeds, `"12345"` (no leading
`+`) is rejected with a 400 response. -/
theorem c3_phone_validation_witness :
    validateRequest none (some (String.mk ['+', '1', '2'])) =
        ValidateResult.proceed none
          (some (jsTrimS (String.mk ['+', '1', '2']))) ∧
      ∃ m, validateRequest none (some "12345") = ValidateResult.reject 400 m :=
  ⟨c3_phone_validation.2.1 '1' ['2'] (by decide) (by decide)
      (by intro d hd; simp at hd; subst hd; decide) (by decide) (by decide),
    c3_phone_validation.2.2 "12345" (by decide)⟩

/-! ## Claim C5 -/

theorem recordFailures_cons (th t : Nat) (ts : List Nat) (cb : CBState) :
    recordFailures th (t :: ts) cb = recordFailures th ts (recordFailure t th cb) :=
  rfl

theorem recordFailures_append_last (th t : Nat) (ts : List Nat) (cb : CBState) :
    recordFailures th (ts ++ [t]) cb =
      recordFailure t th (recordFailures th ts cb) := by
  simp [recordFailures, List.foldl_append]

theorem recordFailures_failures (th : Nat) :
    ∀ (times : List Nat) (cb : CBState),
      (recordFailures th times cb).failures = cb.failures + times.length := by
  intro times
  induction times with
  | nil => intro cb; simp [recordFailures]
  | cons t ts ih =>
    intro cb
    rw [recordFailures_cons, ih]
    simp [recordFailure]
    omega

theorem recordFailures_isOpen (th : Nat) :
    ∀ (times : List Nat) (cb : CBState),
      ((recordFailures th times cb).isOpen = true ↔
        cb.isOpen = true ∨ (1 ≤ times.length ∧ th < cb.failures + times.length)) := by
  intro times
  induction times with
  | nil => intro cb; simp [recordFailures]
  | cons t ts ih =>
    intro cb
    rw [recordFailures_cons, ih]
    simp only [recordFailure, List.length_cons]
    by_cases h : th < cb.failures + 1
    · simp only [if_pos h]
      constructor
      · intro _; right; exact ⟨by omega, by omega⟩
      · intro _; exact Or.inl trivial
    · simp only [if_neg h]
      constructor
      · rintro (ho | ⟨h1, h2⟩)
        · exact Or.inl ho
        · exact Or.inr ⟨by omega, by omega⟩
      · rintro (ho | ⟨h1, h2⟩)
        · exact Or.inl ho
        · exact Or.inr ⟨by omega, by omega⟩

/-- Claim C5.  From a freshly reset breaker (failure counter 0, closed),
after `threshold + 1` calls to `recordFailure()` the breaker reports open;
it keeps reporting open on every check made at most `resetTimeoutMs`
after the last recorded failure, leaving the state unchanged; a check
made strictly later than `resetTimeoutMs` after the last failure reports
closed and zeroes the failure counter (lazily, on the check itself); and
after at most `threshold` recorded failures every check reports closed. -/
theorem c5_circuit_breaker (threshold resetTime : Nat) (cb0 : CBState)
    (h0f : cb0.failures = 0) (h0o : cb0.isOpen = false)
    (ts : List Nat) (t : Nat) (hlen : ts.length = threshold) :
    ((recordFailures threshold (ts ++ [t]) cb0).isOpen = true ∧
        (recordFailures threshold (ts ++ [t]) cb0).failures = threshold + 1 ∧
        (recordFailures threshold (ts ++ [t]) cb0).lastFailure = t) ∧
      (∀ now, now - t ≤ resetTime →
        isCircuitOpen now resetTime (recordFailures threshold (ts ++ [t]) cb0) =
          (true, recordFailures threshold (ts ++ [t]) cb0)) ∧
      (∀ now, resetTime < now - t →
        isCircuitOpen now resetTime (recordFailures threshold (ts ++ [t]) cb0) =
          (false,
            { recordFailures threshold (ts ++ [t]) cb0 with
                failures := 0, isOpen := false })) ∧
      (∀ (ts2 : List Nat) (now : Nat), ts2.length ≤ threshold →
        (isCircuitOpen now resetTime (recordFailures threshold ts2 cb0)).1 =
          false) := by
  have hopen : (recordFailures threshold (ts ++ [t]) cb0).isOpen = true := by
    rw [recordFailures_isOpen]
    right
    constructor
    · simp
    · rw [h0f]; simp [hlen]
  have hfail : (recordFailures threshold (ts ++ [t]) cb0).failures =
      threshold + 1 := by
    rw [recordFailures_failures, h0f]
    simp [hlen]
  have hlast : (recordFailures threshold (ts ++ [t]) cb0).lastFailure = t := by
    rw [recordFailures_append_last]
    rfl
  refine ⟨⟨hopen, hfail, hlast⟩, ?_, ?_, ?_⟩
  · intro now hnow
    simp [isCircuitOpen, hopen, hlast, Nat.not_lt.mpr hnow]
  · intro now hnow
    simp [isCircuitOpen, hopen, hlast, hnow]
  · intro ts2 now hle
    have hclosed : (recordFailures threshold ts2 cb0).isOpen = false := by
      rw [Bool.eq_false_iff]
      intro hcon
      rw [recordFailures_isOpen] at hcon
      rcases hcon with ho | ⟨h1, h2⟩
      · rw [h0o] at ho; exact Bool.false_ne_true ho
      · rw [h0f] at h2; omega
    simp [isCircuitOpen, hclosed]

/-- Witness for C5: threshold 10, reset time 300000 ms, 11 failures the
last at time 4; a check at time 300004 (elapsed 300000) still reports
open with the state unchanged. -/
theorem c5_circuit_breaker_witness :
    isCircuitOpen 300004 300000
        (recordFailures 10 (List.replicate 10 3 ++ [4]) ⟨0, 0, false⟩) =
      (true, recordFailures 10 (List.replicate 10 3 ++ [4]) ⟨0, 0, false⟩) :=
  (c5_circuit_breaker 10 300000 ⟨0, 0, false⟩ rfl rfl (List.replicate 10 3) 4
      (by decide)).2.1 300004 (by decide)

/-! ## Helper lemmas for the pipeline -/

theorem retryE_eq {α : Type} (op : Except Err α) : retryE op = op := by
  cases op <;> rfl

theorem except_bind_ok {α β : Type} (a : α) (f : α → Except Err β) :
    ((Except.ok a : Except Err α) >>= f) = f a := rfl

theorem except_bind_err {α β : Type} (e : Err) (f : α → Except Err β) :
    ((Except.error e : Except Err α) >>= f) = Except.error e := rfl

/-! ## Claim C6 -/

/-- Claim C6.  For every request whose identifier has a cached
`MintResult` that is still within its TTL, the pipeline returns exactly
the stored result, leaves the whole server state (circuit breaker
included) unchanged, and enters zero downstream steps. -/
theorem c6_cache_hit_short_circuit (cfg : Config) (env : MintEnv) (now : Nat)
    (st : ServerState) (email phone email1 phone1 : Option String)
    (id : String) (r : MintResult)
    (hval : validateRequest email phone = ValidateResult.proceed email1 phone1)
    (hid : jsOr email1 phone1 = some id) (hne : id ≠ "")
    (hhit : cacheGet st.cache now ("mint:" ++ id) = some r) :
    postMint cfg env now st email phone = (HttpResponse.okJson r, st, 0) := by
  simp [postMint, hval, hid, hne, hhit]

/-- Concrete breaker state for witnesses: a fresh breaker. -/
def cbFresh : CBState := ⟨0, 0, false⟩

/-- Concrete downstream environment for witnesses of the short-circuit
claims: every downstream step would fail if entered. -/
def envDown : MintEnv :=
  { initCapsule := Except.error (Err.jsError "down"),
    caps :=
      { hasPregenWallet := Except.error (Err.jsError "down"),
        createWalletPreGen := Except.error (Err.jsError "down"),
        getUserShare := Except.error (Err.jsError "down"),
        storeUserShare := fun _ => Except.error (Err.jsError "down"),
        getShareFromDb := Except.error (Err.jsError "down"),
        setUserShare := fun _ => Except.error (Err.jsError "down"),
        getWallets := [] },
    viem := Except.error (Err.jsError "down"),
    alchemy := Except.error (Err.jsError "down"),
    sendUserOp := Except.error (Err.jsError "down") }

/-- Concrete cached result for the C6 witness. -/
def resC6 : MintResult :=
  ⟨"success", "a@b.c", IdKind.EMAIL, "0xabc", "0xhash"⟩

/-- Witness for C6: a cached entry for `a@b.c` is returned verbatim with
the state untouched and zero downstream steps, even though every
downstream step would fail. -/
theorem c6_cache_hit_short_circuit_witness :
    postMint {} envDown 1000 ⟨cbFresh, [("mint:a@b.c", resC6, 2000)]⟩
        (some "a@b.c") none =
      (HttpResponse.okJson resC6, ⟨cbFresh, [("mint:a@b.c", resC6, 2000)]⟩, 0) :=
  c6_cache_hit_short_circuit {} envDown 1000
    ⟨cbFresh, [("mint:a@b.c", resC6, 2000)]⟩ (some "a@b.c") none
    (some "a@b.c") none "a@b.c" resC6 (by decide) (by decide) (by decide)
    (by decide)

/-! ## Claim C7 -/

/-- Claim C7.  Whenever the breaker is open and the reset timeout has
not yet elapsed since the last recorded failure, a validated, non-cached
`POST /mint` is answered 503 with `retryAfter` equal to the configured
reset time expressed in seconds, the state is unchanged, and zero
downstream steps are entered. -/
theorem c7_breaker_open_rejects (cfg : Config) (env : MintEnv) (now : Nat)
    (st : ServerState) (email phone email1 phone1 : Option String)
    (id : String) (S : Nat)
    (hval : validateRequest email phone = ValidateResult.proceed email1 phone1)
    (hid : jsOr email1 phone1 = some id) (hne : id ≠ "")
    (hmiss : cacheGet st.cache now ("mint:" ++ id) = none)
    (hopen : st.cb.isOpen = true)
    (helap : now - st.cb.lastFailure ≤ cfg.resetTime)
    (hsec : cfg.resetTime = 1000 * S) :
    postMint cfg env now st email phone =
      (HttpResponse.errJson 503 "Service temporarily unavailable" (some S),
        st, 0) := by
  have hchk : isCircuitOpen now cfg.resetTime st.cb = (true, st.cb) := by
    simp [isCircuitOpen, hopen, Nat.not_lt.mpr helap]
  have hS : cfg.resetTime / 1000 = S := by
    rw [hsec]
    exact Nat.mul_div_cancel_left S (by norm_num)
  simp [postMint, hval, hid, hne, hmiss, hchk, hS]

/-- Witness for C7: after 11 consecutive recorded failures at the
default threshold 10 (breaker open, last failure at time 5), a request
at time 10 is answered 503 with `retryAfter` 300 seconds (the default
reset time 300000 ms), with no downstream step entered. -/
theorem c7_breaker_open_rejects_witness :
    postMint {} envDown 10
        ⟨recordFailures 10 (List.replicate 11 5) cbFresh, []⟩
        (some "a@b.c") none =
      (HttpResponse.errJson 503 "Service temporarily unavailable" (some 300),
        ⟨recordFailures 10 (List.replicate 11 5) cbFresh, []⟩, 0) :=
  c7_breaker_open_rejects {} envDown 10
    ⟨recordFailures 10 (List.replicate 11 5) cbFresh, []⟩ (some "a@b.c") none
    (some "a@b.c") none "a@b.c" 300 (by decide) (by decide) (by decide)
    (by decide) (by decide) (by decide) (by decide)

/-! ## Claim C4 -/

/-- Claim C4 (counterexample).  The claim states that a body with email
`"User@Example.com "` (trailing space) passes validation.  It does not:
`isValidEmail` applies the anchored regex to the raw string before any
trimming, the trailing space fails the final `[^\s@]+$` class, and the
request is rejected with 400 `Invalid email format`. -/
theorem c4_counterexample :
    isValidEmail "User@Example.com " = false ∧
      validateRequest (some "User@Example.com ") none =
        ValidateResult.reject 400 "Invalid email format" := by
  decide

/-- Claim C4 (amended).  A `POST /mint` with email `"User@Example.com "`
(trailing space) is rejected with 400, because validation precedes
trimming; for the email `"User@Example.com"` without trailing
whitespace, validation passes and the identifier is normalized to
`user@example.com`; with no cached result, a closed breaker, no prior
wallet and no downstream failures, the response is 200 with status
`success`, the identifier `user@example.com`, kind EMAIL, and non-empty
`walletAddress` and `operationHash`. -/
theorem c4_mint_success (cfg : Config) (env : MintEnv) (now : Nat)
    (st : ServerState) (w : Wallet) (sh oph : String)
    (hmr : 1 ≤ cfg.maxRetries)
    (hinit : env.initCapsule = Except.ok ())
    (hhas : env.caps.hasPregenWallet = Except.ok false)
    (hcreate : env.caps.createWalletPreGen = Except.ok w)
    (haddr : w.address ≠ "")
    (hshare : env.caps.getUserShare = Except.ok (some sh)) (hshne : sh ≠ "")
    (hstore : env.caps.storeUserShare sh = Except.ok ())
    (hviem : env.viem = Except.ok ())
    (halch : env.alchemy = Except.ok ())
    (hsend : env.sendUserOp = Except.ok oph) (hophne : oph ≠ "")
    (hmiss : cacheGet st.cache now ("mint:" ++ "user@example.com") = none)
    (hclosed : st.cb.isOpen = false) :
    validateRequest (some "User@Example.com ") none =
        ValidateResult.reject 400 "Invalid email format" ∧
      postMint cfg env now st (some "User@Example.com") none =
        (HttpResponse.okJson
            { status := "success", identifier := "user@example.com",
              identifierType := IdKind.EMAIL, walletAddress := w.address,
              operationHash := oph },
          ⟨cbReset st.cb,
            cacheSet st.cache now cfg.cacheTTL ("mint:" ++ "user@example.com")
              { status := "success", identifier := "user@example.com",
                identifierType := IdKind.EMAIL, walletAddress := w.address,
                operationHash := oph }⟩, 6) ∧
      w.address ≠ "" ∧ oph ≠ "" := by
  refine ⟨by decide, ?_, haddr, hophne⟩
  have hval : validateRequest (some "User@Example.com") none =
      ValidateResult.proceed (some "user@example.com") none := by decide
  have hgetop : getUserShareOp env.caps = Except.ok sh := by
    simp [getUserShareOp, hshare, hshne]
  have hbody : createOrGetBody env.caps = Except.ok w := by
    simp [createOrGetBody, retryE_eq, hhas, hcreate, hgetop, hstore,
      except_bind_ok]
  have hcog : createOrGetPregenWallet "user@example.com" env.caps =
      Except.ok w := by
    rw [createOrGetPregenWallet, if_neg (by decide), hbody]
  have hatt : mintAttempt env "user@example.com" IdKind.EMAIL =
      (Except.ok
        { status := "success", identifier := "user@example.com",
          identifierType := IdKind.EMAIL, walletAddress := w.address,
          operationHash := oph }, 5) := by
    simp [mintAttempt, hinit, hcog, haddr, hviem, halch, hsend]
  obtain ⟨m, hm⟩ : ∃ m, cfg.maxRetries = m + 1 :=
    ⟨cfg.maxRetries - 1, by omega⟩
  have hloop : performMintLoop env "user@example.com" IdKind.EMAIL
      cfg.maxRetries none =
      (Except.ok
        { status := "success", identifier := "user@example.com",
          identifierType := IdKind.EMAIL, walletAddress := w.address,
          operationHash := oph }, 5) := by
    rw [hm]
    simp [performMintLoop, hatt]
  have hpm : performMint cfg env (some "user@example.com") none =
      (Except.ok
        { status := "success", identifier := "user@example.com",
          identifierType := IdKind.EMAIL, walletAddress := w.address,
          operationHash := oph }, 5) := by
    simp [performMint, jsOr, presentS, hloop]
  have hchk : isCircuitOpen now cfg.resetTime st.cb = (false, st.cb) := by
    simp [isCircuitOpen, hclosed]
  have hmiss2 : cacheGet st.cache now "mint:user@example.com" = none := hmiss
  simp [postMint, hval, hchk, hmiss2, mintHandler, hinit, hpm, jsOr, presentS,
    cbReset]

/-- Concrete oracles for the C4 witness: no prior wallet, every
downstream step succeeds. -/
def capsOk : CapsuleOracles :=
  { hasPregenWallet := Except.ok false,
    createWalletPreGen := Except.ok ⟨"w1", "0xabc"⟩,
    getUserShare := Except.ok (some "share1"),
    storeUserShare := fun _ => Except.ok (),
    getShareFromDb := Except.ok none,
    setUserShare := fun _ => Except.ok (),
    getWallets := [] }

/-- Concrete downstream environment for the C4 witness. -/
def envOk : MintEnv :=
  { initCapsule := Except.ok (), caps := capsOk, viem := Except.ok (),
    alchemy := Except.ok (), sendUserOp := Except.ok "0xhash" }

/-- Witness for C4 (amended), at the default configuration with a fresh
breaker and an empty cache. -/
theorem c4_mint_success_witness :
    validateRequest (some "User@Example.com ") none =
        ValidateResult.reject 400 "Invalid email format" ∧
      postMint {} envOk 1000 ⟨cbFresh, []⟩ (some "User@Example.com") none =
        (HttpResponse.okJson
            { status := "success", identifier := "user@example.com",
              identifierType := IdKind.EMAIL, walletAddress := "0xabc",
              operationHash := "0xhash" },
          ⟨cbReset cbFresh,
            cacheSet [] 1000 3600 ("mint:" ++ "user@example.com")
              { status := "success", identifier := "user@example.com",
                identifierType := IdKind.EMAIL, walletAddress := "0xabc",
                operationHash := "0xhash" }⟩, 6) ∧
      ("0xabc" : String) ≠ "" ∧ ("0xhash" : String) ≠ "" :=
  c4_mint_success {} envOk 1000 ⟨cbFresh, []⟩ ⟨"w1", "0xabc"⟩ "share1" "0xhash"
    (by decide) rfl rfl rfl (by decide) rfl (by decide) rfl rfl rfl rfl
    (by decide) rfl rfl

/-! ## Claim C9 -/

/-- Claim C9.  When the custodial service reports an existing
pregenerated wallet for an identifier, provisioning loads the persisted
share from the store and fails with a `WalletOperationError` when it is
absent (or empty, which the code treats as absent); otherwise it
re-injects the share into the custodial session, reads back the session
wallet set, returns its first entry, and fails with a
`WalletOperationError` when the set is empty. -/
theorem c9_existing_wallet_provisioning (caps : CapsuleOracles) (id : String)
    (hid : id ≠ "") (hhas : caps.hasPregenWallet = Except.ok true) :
    (∀ r, caps.getShareFromDb = Except.ok r → (r = none ∨ r = some "") →
      isWalletOpErrorRes (createOrGetPregenWallet id caps) = true) ∧
    (∀ sh, caps.getShareFromDb = Except.ok (some sh) → sh ≠ "" →
      caps.setUserShare sh = Except.ok () →
      ((caps.getWallets = [] →
          isWalletOpErrorRes (createOrGetPregenWallet id caps) = true) ∧
        (∀ w ws, caps.getWallets = w :: ws →
          createOrGetPregenWallet id caps = Except.ok w))) := by
  constructor
  · intro r hdb hr
    rcases hr with h | h <;> subst h <;>
      simp [createOrGetPregenWallet, hid, createOrGetBody, retryE_eq, hhas,
        hdb, except_bind_ok, isWalletOpErrorRes]
  · intro sh hdb hshne hset
    constructor
    · intro hw
      simp [createOrGetPregenWallet, hid, createOrGetBody, retryE_eq, hhas,
        hdb, hshne, hset, hw, except_bind_ok, isWalletOpErrorRes]
    · intro w ws hw
      simp [createOrGetPregenWallet, hid, createOrGetBody, retryE_eq, hhas,
        hdb, hshne, hset, hw, except_bind_ok]

/-- Concrete oracles for the C9 witness: an existing wallet whose share
is persisted and whose session holds one wallet. -/
def capsExist : CapsuleOracles :=
  { hasPregenWallet := Except.ok true,
    createWalletPreGen := Except.error (Err.jsError "unused"),
    getUserShare := Except.error (Err.jsError "unused"),
    storeUserShare := fun _ => Except.error (Err.jsError "unused"),
    getShareFromDb := Except.ok (some "sh2"),
    setUserShare := fun _ => Except.ok (),
    getWallets := [⟨"w2", "0xdef"⟩] }

/-- Concrete oracles for the C9 witness: an existing wallet but no
persisted share. -/
def capsNoShare : CapsuleOracles :=
  { capsExist with getShareFromDb := Except.ok none }

/-- Witness for C9: with a persisted share the first session wallet is
returned; with no persisted share the result is a
`WalletOperationError`. -/
theorem c9_existing_wallet_provisioning_witness :
    createOrGetPregenWallet "a@b.c" capsExist = Except.ok ⟨"w2", "0xdef"⟩ ∧
      isWalletOpErrorRes (createOrGetPregenWallet "a@b.c" capsNoShare) =
        true :=
  ⟨((c9_existing_wallet_provisioning capsExist "a@b.c" (by decide) rfl).2
        "sh2" rfl (by decide) rfl).2 ⟨"w2", "0xdef"⟩ [] rfl,
    (c9_existing_wallet_provisioning capsNoShare "a@b.c" (by decide) rfl).1
      none rfl (Or.inl rfl)⟩

/-! ## Claim C10 -/

/-- Claim C10.  When a request supplies both an email and a phone, the
validator checks both fields independently: a valid email with an
invalid non-empty phone is rejected 400 with the phone error; when both
are valid the request proceeds with both fields normalized; and the
email-precedence rule acts only on identifier and kind selection —
`performMint` with a non-empty email field behaves identically whether
or not a phone field is present. -/
theorem c10_both_fields_validated (e p : String)
    (he : isValidEmail e = true) :
    (p ≠ "" → isValidPhone p = false →
      validateRequest (some e) (some p) =
        ValidateResult.reject 400
          "Invalid phone format. Use international format (e.g. +5511999999999)") ∧
      (isValidPhone p = true →
        validateRequest (some e) (some p) =
          ValidateResult.proceed (some (normalizeEmail e))
            (some (jsTrimS p))) ∧
      (∀ (cfg : Config) (env : MintEnv) (e1 : String), e1 ≠ "" →
        performMint cfg env (some e1) (some p) =
          performMint cfg env (some e1) none) := by
  have hene : e ≠ "" := by
    intro h
    rw [h] at he
    exact absurd he (by decide)
  refine ⟨?_, ?_, ?_⟩
  · intro hpne hp
    simp [validateRequest, validatePhonePart, presentS, hene, hpne, he, hp]
  · intro hp
    have hpne : p ≠ "" := by
      intro h
      rw [h] at hp
      exact absurd hp (by decide)
    simp [validateRequest, validatePhonePart, presentS, hene, hpne, he, hp]
  · intro cfg env e1 he1
    simp [performMint, jsOr, presentS, he1]

/-- Witness for C10: the valid email `A@B.co` with the invalid phone
`+0` is rejected with the phone error, and `performMint` ignores the
phone field when a non-empty email field is present. -/
theorem c10_both_fields_validated_witness :
    validateRequest (some "A@B.co") (some "+0") =
        ValidateResult.reject 400
          "Invalid phone format. Use international format (e.g. +5511999999999)" ∧
      performMint {} envDown (some "x") (some "+0") =
        performMint {} envDown (some "x") none :=
  ⟨(c10_both_fields_validated "A@B.co" "+0" (by decide)).1 (by decide)
      (by decide),
    (c10_both_fields_validated "A@B.co" "+0" (by decide)).2.2 {} envDown "x"
      (by decide)⟩

/-! ## Claim C8: helper lemmas -/

theorem string_mk_data (l : List Char) : (String.mk l).data = l := rfl

theorem hexDigit_toNat_range {c : Char} {d : Nat} (h : hexDigitVal c = some d) :
    (48 ≤ c.toNat ∧ c.toNat ≤ 57 ∧ d = c.toNat - 48) ∨
      (97 ≤ c.toNat ∧ c.toNat ≤ 102 ∧ d = c.toNat - 87) ∨
      (65 ≤ c.toNat ∧ c.toNat ≤ 70 ∧ d = c.toNat - 55) := by
  simp only [hexDigitVal] at h
  split_ifs at h with h1 h2 h3
  · left
    simp only [Bool.and_eq_true, decide_eq_true_eq] at h1
    exact ⟨h1.1, h1.2, by injection h with h; omega⟩
  · right; left
    simp only [Bool.and_eq_true, decide_eq_true_eq] at h2
    exact ⟨h2.1, h2.2, by injection h with h; omega⟩
  · right; right
    simp only [Bool.and_eq_true, decide_eq_true_eq] at h3
    exact ⟨h3.1, h3.2, by injection h with h; omega⟩

theorem hexDigitVal_le15 {c : Char} {d : Nat} (h : hexDigitVal c = some d) :
    d ≤ 15 := by
  rcases hexDigit_toNat_range h with ⟨a, b, hd⟩ | ⟨a, b, hd⟩ | ⟨a, b, hd⟩ <;>
    omega

theorem hexDigit_not_ws {c : Char} {d : Nat} (h : hexDigitVal c = some d) :
    jsWsB c = false := by
  have hr := hexDigit_toNat_range h
  cases hc : jsWsB c
  · rfl
  · exfalso
    simp only [jsWsB, Bool.or_eq_true, decide_eq_true_eq] at hc
    rcases hr with ⟨a, b, _⟩ | ⟨a, b, _⟩ | ⟨a, b, _⟩ <;> omega

theorem hexDigit_toNat_ne {c : Char} {d : Nat} (h : hexDigitVal c = some d)
    (n : Nat) (hn : n < 48 ∨ (57 < n ∧ n < 65) ∨ (70 < n ∧ n < 97) ∨ 102 < n)
    (x : Char) (hx : x.toNat = n) : c ≠ x := by
  intro hcx
  have hc : c.toNat = n := by rw [hcx, hx]
  rcases hexDigit_toNat_range h with ⟨a, b, _⟩ | ⟨a, b, _⟩ | ⟨a, b, _⟩ <;>
    omega

theorem jsParseIntHex_pair {c1 c2 : Char} {d1 d2 : Nat}
    (h1 : hexDigitVal c1 = some d1) (h2 : hexDigitVal c2 = some d2) :
    jsParseIntHex [c1, c2] = some ((16 * d1 + d2 : Nat) : Int) := by
  have hw1 : jsWsB c1 = false := hexDigit_not_ws h1
  have hw2 : jsWsB c2 = false := hexDigit_not_ws h2
  have hm : c1 ≠ '-' :=
    hexDigit_toNat_ne h1 45 (by omega) '-' rfl
  have hp : c1 ≠ '+' :=
    hexDigit_toNat_ne h1 43 (by omega) '+' rfl
  have hx : c2 ≠ 'x' :=
    hexDigit_toNat_ne h2 120 (by omega) 'x' rfl
  have hX : c2 ≠ 'X' :=
    hexDigit_toNat_ne h2 88 (by omega) 'X' rfl
  simp only [jsParseIntHex, List.dropWhile_cons, hw1, Bool.false_eq_true,
    if_false, hm, hp, hx, hX, Bool.or_self, Bool.and_false, if_neg,
    hexDigitsVal, h1, h2]
  simp [hm, hp, hx, hX, hexDigitsVal, h1, h2, Option.isSome]

/-- Decidable check that for `27 ≤ n < 54` the padded hex rendering of
`n` is exactly two hex characters whose pair value is `n` again. -/
def hex2ok (n : Nat) : Bool :=
  match (padStart2 (jsNumToHexString ((n : Nat) : Int))).data with
  | [a, b] => hexPairVal a b == some n
  | _ => false

theorem hex2ok_range : ∀ n : Nat, n < 54 → 27 ≤ n → hex2ok n = true := by
  decide

theorem hex2ok_spec {n : Nat} (h : hex2ok n = true) :
    ∃ a b, (padStart2 (jsNumToHexString ((n : Nat) : Int))).data = [a, b] ∧
      hexPairVal a b = some n := by
  unfold hex2ok at h
  split at h
  · next a b heq => exact ⟨a, b, heq, by simpa using h⟩
  · exact absurd h (by simp)

theorem string_append_data (x y : String) : (x ++ y).data = x.data ++ y.data :=
  rfl

/-- Claim C8.  With a non-empty session wallet record: a missing (or
non-string) signer signature yields a `SigningError`; for a well-formed
hex signature (arbitrary hex prefix plus two final hex characters), the
returned signature is the input prefixed with `0x`, with the trailing
recovery byte replaced by itself plus 27 (re-encoded as two hex digits)
when it was below 27 decimal, so the trailing recovery byte of the
returned signature is always at least 27. -/
theorem c8_signature_normalization (ws : List Wallet) (hws : ws ≠ []) :
    isSigningErrorRes (customSignMessage (some ws) (Except.ok none)) = true ∧
      (∀ (p : List Char) (c1 c2 : Char) (d1 d2 : Nat),
        hexDigitVal c1 = some d1 → hexDigitVal c2 = some d2 →
        ∃ out,
          customSignMessage (some ws)
              (Except.ok (some (String.mk (p ++ [c1, c2])))) =
            Except.ok out ∧
          out.data.take 2 = ['0', 'x'] ∧
          (out.data.drop 2).take p.length = p ∧
          ∃ t, trailingPairVal out = some t ∧ 27 ≤ t ∧
            (27 ≤ 16 * d1 + d2 →
              out = String.mk ('0' :: 'x' :: (p ++ [c1, c2])) ∧
                t = 16 * d1 + d2) ∧
            (16 * d1 + d2 < 27 → t = 16 * d1 + d2 + 27)) := by
  obtain ⟨w, ws', rfl⟩ : ∃ w ws', ws = w :: ws' := by
    cases ws with
    | nil => exact absurd rfl hws
    | cons w ws' => exact ⟨w, ws', rfl⟩
  constructor
  · simp [customSignMessage, customSignMessageBody, retryE_eq, except_bind_ok,
      isSigningErrorRes]
  · intro p c1 c2 d1 d2 h1 h2
    have hsne : String.mk (p ++ [c1, c2]) ≠ "" := by
      intro hcon
      have := congrArg String.data hcon
      simp at this
    have hlen : (p ++ [c1, c2]).length - 2 = p.length := by simp
    have hdrop : (p ++ [c1, c2]).drop p.length = [c1, c2] :=
      List.drop_left p [c1, c2]
    have htake : (p ++ [c1, c2]).take p.length = p :=
      List.take_left p [c1, c2]
    have hparse := jsParseIntHex_pair h1 h2
    by_cases hv : 16 * d1 + d2 < 27
    · -- the trailing byte is adjusted by adding 27
      have hvI : ((16 * d1 + d2 : Nat) : Int) < 27 := by exact_mod_cast hv
      have hcast : ((16 * d1 + d2 : Nat) : Int) + 27 =
          ((16 * d1 + d2 + 27 : Nat) : Int) := by push_cast; ring
      obtain ⟨a, b, hdata, hpair⟩ :=
        hex2ok_spec (hex2ok_range (16 * d1 + d2 + 27) (by omega) (by omega))
      have hdata2 :
          (padStart2
            (jsNumToHexString (((16 * d1 + d2 : Nat) : Int) + 27))).data =
            [a, b] := by
        rw [hcast]; exact hdata
      refine ⟨"0x" ++ String.mk p ++
          padStart2 (jsNumToHexString (((16 * d1 + d2 : Nat) : Int) + 27)),
        ?_, ?_, ?_, 16 * d1 + d2 + 27, ?_, by omega, ?_, fun _ => rfl⟩
      · simp only [customSignMessage, customSignMessageBody, retryE_eq,
          except_bind_ok, string_mk_data, hlen, hdrop, htake, hparse]
        rw [if_neg hsne, if_pos hvI]
        rfl
      · rw [string_append_data, string_append_data, hdata2, string_mk_data]
        rfl
      · rw [string_append_data, string_append_data, hdata2, string_mk_data]
        have : ("0x".data ++ p) ++ [a, b] = '0' :: 'x' :: (p ++ [a, b]) := by
          simp
        rw [this]
        simp [List.take_left p [a, b]]
      · rw [trailingPairVal, string_append_data, string_append_data, hdata2,
          string_mk_data]
        have : ("0x".data ++ p) ++ [a, b] = ('0' :: 'x' :: p) ++ [a, b] := by
          simp
        rw [this, List.reverse_append]
        simpa using hpair
      · intro hcon; omega
    · -- the trailing byte is already at least 27
      have hvI : ¬ ((16 * d1 + d2 : Nat) : Int) < 27 := by exact_mod_cast hv
      refine ⟨"0x" ++ String.mk (p ++ [c1, c2]), ?_, ?_, ?_,
        16 * d1 + d2, ?_, by omega, fun _ => ⟨rfl, rfl⟩, ?_⟩
      · simp only [customSignMessage, customSignMessageBody, retryE_eq,
          except_bind_ok, string_mk_data, hlen, hdrop, htake, hparse]
        rw [if_neg hsne, if_neg hvI]
        rfl
      · rfl
      · rw [string_append_data, string_mk_data]
        have : "0x".data ++ (p ++ [c1, c2]) = '0' :: 'x' :: (p ++ [c1, c2]) := by
          simp
        rw [this]
        simp [List.take_left p [c1, c2]]
      · rw [trailingPairVal, string_append_data, string_mk_data]
        have : "0x".data ++ (p ++ [c1, c2]) = ('0' :: 'x' :: p) ++ [c1, c2] := by
          simp
        rw [this, List.reverse_append]
        simp [hexPairVal, h1, h2]
      · intro hcon; omega

/-- Witness for C8: with one session wallet, a missing signature is a
`SigningError`, and the signature `aabb01` (trailing byte 1 < 27) is
returned as `0xaabb1c` (trailing byte 28 = 1 + 27). -/
theorem c8_signature_normalization_witness :
    isSigningErrorRes
        (customSignMessage (some [⟨"w1", "0xabc"⟩]) (Except.ok none)) = true ∧
      ∃ out,
        customSignMessage (some [⟨"w1", "0xabc"⟩])
            (Except.ok (some (String.mk (['a', 'a', 'b', 'b'] ++ ['0', '1'])))) =
          Except.ok out ∧
        out.data.take 2 = ['0', 'x'] ∧
        (out.data.drop 2).take 4 = ['a', 'a', 'b', 'b'] ∧
        ∃ t, trailingPairVal out = some t ∧ 27 ≤ t ∧
          (27 ≤ 16 * 0 + 1 →
            out = String.mk ('0' :: 'x' :: (['a', 'a', 'b', 'b'] ++ ['0', '1'])) ∧
              t = 16 * 0 + 1) ∧
          (16 * 0 + 1 < 27 → t = 16 * 0 + 1 + 27) :=
  ⟨(c8_signature_normalization [⟨"w1", "0xabc"⟩] (by simp)).1,
    (c8_signature_normalization [⟨"w1", "0xabc"⟩] (by simp)).2
      ['a', 'a', 'b', 'b'] '0' '1' 0 1 rfl rfl⟩

end NiceApi
